import Mathlib

/-!
Shallow embedding of `mapdbsnp` (src/mapdbsnp/src/main.rs): a two-phase
batch tool that builds a sorted fixed-width binary index from a
tab-separated table of rsid-to-locus mappings and then rewrites a second
table by binary-searching that index.

The index file is a list of bytes (naturals < 256); machine integers are
naturals with explicit reduction modulo 2^w where the Rust `u64`/`u32`/`u8`
arithmetic can wrap (release-profile wrapping semantics; debug builds
panic at the same spots, so a wrap in this model marks an overflow in the
source either way).  Fallible operations return `Option`; a `none` marks a
Rust `Err` or a panic, both of which abort the run.
-/

namespace Mapdbsnp

/-- Modulus of Rust `u64` arithmetic. -/
def U64 : Nat := 2 ^ 64

/-- Constant `RECORD_COUNTER_SIZE`: byte size of the record-count header. -/
def RECORD_COUNTER_SIZE : Nat := 8

/-- Constant `RECORD_SIZE`: byte size of one record (4 + 1 + 4). -/
def RECORD_SIZE : Nat := 9

/-- Big-endian byte encoding of a `u32` (`u32::to_be_bytes`); values are
reduced modulo 2^32 by the byte extraction itself. -/
def u32_to_be (n : Nat) : List Nat :=
  [n / 2 ^ 24 % 256, n / 2 ^ 16 % 256, n / 2 ^ 8 % 256, n % 256]

/-- Big-endian byte encoding of a `u64`/`usize` (`to_be_bytes`; the target
is 64-bit, so `usize` is 8 bytes). -/
def u64_to_be (n : Nat) : List Nat :=
  [n / 2 ^ 56 % 256, n / 2 ^ 48 % 256, n / 2 ^ 40 % 256, n / 2 ^ 32 % 256,
   n / 2 ^ 24 % 256, n / 2 ^ 16 % 256, n / 2 ^ 8 % 256, n % 256]

/-- Big-endian value of a byte list (`byteorder::BigEndian` decoding). -/
def be_val (bs : List Nat) : Nat := bs.foldl (fun a b => a * 256 + b) 0

/-- Positioned read `read_exact_at`: `len` bytes at `offset`, erring (like the Rust
`read_exact_at`, which fails on short reads) past end of file. -/
def read_bytes_at (file : List Nat) (offset len : Nat) : Option (List Nat) :=
  if offset + len ≤ file.length then some ((file.drop offset).take len) else none

/-- Source `read_u8_at`. -/
def read_u8_at (file : List Nat) (offset : Nat) : Option Nat :=
  (read_bytes_at file offset 1).map be_val

/-- Source `read_u32_at`. -/
def read_u32_at (file : List Nat) (offset : Nat) : Option Nat :=
  (read_bytes_at file offset 4).map be_val

/-- Source `read_u64_at`. -/
def read_u64_at (file : List Nat) (offset : Nat) : Option Nat :=
  (read_bytes_at file offset 8).map be_val

/-- Source `get_map_seek_index`: byte offset of record `record_idx`
(`RECORD_COUNTER_SIZE + record_idx * RECORD_SIZE` in `u64` arithmetic). -/
def get_map_seek_index (record_idx : Nat) : Nat :=
  (RECORD_COUNTER_SIZE + record_idx * RECORD_SIZE) % U64

/-- Numeric value of a decimal digit string (fold as Rust `from_str` does). -/
def digitsVal (cs : List Char) : Nat :=
  cs.foldl (fun a c => a * 10 + (c.toNat - 48)) 0

/-- Rust `str::parse` for an unsigned integer type with carrier bound
`bound`: an optional leading `+`, then one or more ASCII digits, and the
value must fit the carrier (overflow is an error). -/
def parse_nat_bounded (bound : Nat) (cs : List Char) : Option Nat :=
  let ds := match cs with
    | c :: rest => if c = '+' then rest else cs
    | [] => cs
  if ds = [] then none
  else if ds.all Char.isDigit then
    if digitsVal ds < bound then some (digitsVal ds) else none
  else none

/-- Rust `str::parse::<u32>()`. -/
def parse_u32 (s : String) : Option Nat := parse_nat_bounded (2 ^ 32) s.data

/-- Rust `str::replace("rs", "")`: removes every non-overlapping occurrence of
the two-character pattern `rs`, scanning left to right. -/
def removeRS : List Char → List Char
  | [] => []
  | [c] => [c]
  | c1 :: c2 :: rest =>
    if c1 = 'r' ∧ c2 = 's' then removeRS rest
    else c1 :: removeRS (c2 :: rest)

/-- Source `rsid_to_u32`: `rsid.replace("rs", "").parse::<u32>()`. -/
def rsid_to_u32 (s : String) : Option Nat :=
  parse_nat_bounded (2 ^ 32) (removeRS s.data)

/-- Source `chrom_to_u8`: `"X"`/`"Y"`/`"MT"` map to 23/24/25; every other label
falls through to `str::parse::<u8>()`. -/
def chrom_to_u8 (s : String) : Option Nat :=
  if s = "X" then some 23
  else if s = "Y" then some 24
  else if s = "MT" then some 25
  else parse_nat_bounded (2 ^ 8) s.data

/-- Source `u8_to_chrom`: codes 1..=22 render as their decimal string, 23/24/25 as
`X`/`Y`/`MT`; any other byte panics (`Invalid chrom representation`),
modelled as `none`. -/
def u8_to_chrom (x : Nat) : Option String :=
  if 1 ≤ x ∧ x ≤ 22 then some (Nat.repr x)
  else if x = 23 then some "X"
  else if x = 24 then some "Y"
  else if x = 25 then some "MT"
  else none

/-- Source `MapRecord`: the unit stored in the index. -/
structure MapRecord where
  rsid : Nat
  chrom : Nat
  pos : Nat
deriving DecidableEq, Repr

/-- Source `write_map_record`: the 9 record bytes - `rsid` big-endian, the
chromosome byte, `pos` big-endian. -/
def write_map_record (r : MapRecord) : List Nat :=
  u32_to_be r.rsid ++ [r.chrom % 256] ++ u32_to_be r.pos

/-- Rust `str::split` segmentation (on the colon separator) of a character list. -/
def splitColon : List Char → List (List Char)
  | [] => [[]]
  | c :: rest =>
    if c = ':' then [] :: splitColon rest
    else
      match splitColon rest with
      | s :: ss => (c :: s) :: ss
      | [] => [[c]]

/-- Source `parse_map_record`: field 0 is the prefixed rsid, field 1 is
`chrom:pos`; a missing field, a failed parse, or a missing `:` separator
(an `unwrap` panic in the source) aborts the build. -/
def parse_map_record (r : List String) : Option MapRecord :=
  match r with
  | f0 :: f1 :: _ =>
    match rsid_to_u32 f0 with
    | none => none
    | some rsid =>
      match splitColon f1.data with
      | chromStr :: posStr :: _ =>
        match chrom_to_u8 (String.mk chromStr),
              parse_nat_bounded (2 ^ 32) posStr with
        | some chrom, some pos => some ⟨rsid, chrom, pos⟩
        | _, _ => none
      | _ => none
  | _ => none

/-- Loop of `write_map_records`: parse each row, append its 9 encoded
bytes, bump the count, then panic (`Make sure source map is sorted.`) when
the new rsid is strictly below the previous one.  The count and write
happen before the sortedness check, exactly as in the source. -/
def write_map_records_go (lastRsid num_records : Nat) (acc : List Nat) :
    List (List String) → Option (List Nat × Nat)
  | [] => some (acc, num_records)
  | row :: rest =>
    match parse_map_record row with
    | none => none
    | some r =>
      if lastRsid > r.rsid then none
      else write_map_records_go r.rsid (num_records + 1) (acc ++ write_map_record r) rest

/-- Source `write_map_records`: streams the table, returning the record bytes and
the record count; `last_rsid` starts at 0, the count at 0. -/
def write_map_records (rows : List (List String)) : Option (List Nat × Nat) :=
  write_map_records_go 0 0 [] rows

/-- Source `prepend_file`: the final file is the header bytes followed by the
previous content, byte for byte. -/
def prepend_file (data content : List Nat) : List Nat := data ++ content

/-- Source `create_map`: write the records, then splice the 8-byte big-endian
count header onto the front.  `none` when the build aborted: the
destination is left headerless and never becomes a usable index. -/
def create_map (rows : List (List String)) : Option (List Nat) :=
  match write_map_records rows with
  | none => none
  | some (bytes, num_records) => some (prepend_file (u64_to_be num_records) bytes)

/-- The on-disk shape of a successfully built index over records `rs`:
8-byte big-endian count, then the 9-byte records in order. -/
def mapFile (rs : List MapRecord) : List Nat :=
  u64_to_be rs.length ++ (rs.map write_map_record).flatten

/-- Outcome of the per-row binary search in `map_to_loci`. -/
inductive LookupResult where
  /-- `Equal` branch: the decoded chromosome label and position. -/
  | found : String → Nat → LookupResult
  /-- `panic!("{} not found in map", rsid)` when `end < start`. -/
  | notFound : Nat → LookupResult
  /-- The `for _ in 0..max_iters` loop ran out of iterations with no
  match: the source falls through and the row is silently dropped. -/
  | budgetExhausted : LookupResult
  /-- A positioned read failed (for example past end of file). -/
  | ioError : LookupResult
  /-- `u8_to_chrom` panicked on an invalid chromosome byte. -/
  | invalidChrom : LookupResult
deriving DecidableEq, Repr

/-- One iteration of the binary-search loop: either new `start`/`end`
bounds or a terminal outcome. -/
inductive StepResult where
  | next : Nat → Nat → StepResult
  | done : LookupResult → StepResult
deriving DecidableEq, Repr

/-- Body of the binary-search loop over `u64` bounds `start`/`endv`
(`endv` models the source's `end` variable):
check `end < start`, probe the middle record, and either return or update
one bound.  `end = middle - 1` is the source's unchecked `u64` subtraction,
which wraps to `2^64 - 1` when `middle == 0`. -/
def binStep (file : List Nat) (rsid start endv : Nat) : StepResult :=
  if endv < start then .done (.notFound rsid)
  else
    let middle := (endv + start) % U64 / 2
    let seek_idx := get_map_seek_index middle
    match read_u32_at file seek_idx with
    | none => .done .ioError
    | some k =>
      if k < rsid then .next ((middle + 1) % U64) endv
      else if rsid < k then .next start ((middle + (U64 - 1)) % U64)
      else
        match read_u8_at file ((seek_idx + 4) % U64) with
        | none => .done .ioError
        | some cb =>
          match u8_to_chrom cb with
          | none => .done .invalidChrom
          | some chrom =>
            match read_u32_at file ((seek_idx + 4 + 1) % U64) with
            | none => .done .ioError
            | some pos => .done (.found chrom pos)

/-- The binary-search loop, fuelled by the iteration budget: zero fuel
means the `for` loop is over and the row is silently dropped. -/
def binSearch (file : List Nat) (rsid : Nat) : Nat → Nat → Nat → LookupResult
  | 0, _, _ => .budgetExhausted
  | fuel + 1, start, endv =>
    match binStep file rsid start endv with
    | .done r => r
    | .next start' endv' => binSearch file rsid fuel start' endv'

/-- Ceiling of log2 by repeated halving, structurally fuelled.  For every
`n` the call `clog2_go n n` has enough fuel. -/
def clog2_go : Nat → Nat → Nat
  | 0, _ => 0
  | fuel + 1, n => if n ≤ 1 then 0 else clog2_go fuel ((n + 1) / 2) + 1

/-- Source `max_iters = (num_keys_in_map as f64).log2().ceil() as usize`: the
exact ceiling of log2 (`0` for `n = 0`, matching the saturating cast of
negative infinity; the `f64` computation is exact for every count arising
here). -/
def max_iters (n : Nat) : Nat := clog2_go n n

/-- One row's lookup as `map_to_loci` performs it: `start = 0`,
`end = num_keys_in_map - 1` in wrapping `u64` arithmetic (`n = 0` wraps to
`2^64 - 1`), with `max_iters n` loop iterations. -/
def lookupGo (file : List Nat) (n rsid : Nat) : LookupResult :=
  binSearch file rsid (max_iters n) 0 ((n + (U64 - 1)) % U64)

/-- Per-row lookup including the header read of `num_keys_in_map`. -/
def lookupRsid (file : List Nat) (rsid : Nat) : LookupResult :=
  match read_u64_at file 0 with
  | none => .ioError
  | some n => lookupGo file n rsid

/-- Outcome of one input row in the mapping phase. -/
inductive RowResult where
  /-- A row was written to the output table. -/
  | emitted : List String → RowResult
  /-- The search budget ran out: nothing written, no error - the row is
  silently dropped. -/
  | skippedRow : RowResult
  /-- A panic or error aborted the whole run. -/
  | fatal : RowResult
deriving DecidableEq, Repr

/-- Body of the row loop of `map_to_loci`: parse the leading rsid (an
empty record or a parse failure aborts), run the binary search, and on a
match emit `"chrom:pos"` followed by the remaining fields unchanged. -/
def processRow (file : List Nat) (n iters : Nat) (row : List String) : RowResult :=
  match row with
  | [] => .fatal
  | f0 :: rest =>
    match rsid_to_u32 f0 with
    | none => .fatal
    | some rsid =>
      match binSearch file rsid iters 0 ((n + (U64 - 1)) % U64) with
      | .found chrom pos => .emitted ((chrom ++ ":" ++ Nat.repr pos) :: rest)
      | .budgetExhausted => .skippedRow
      | .notFound _ => .fatal
      | .ioError => .fatal
      | .invalidChrom => .fatal

/-- Row loop of `map_to_loci`: `some outRows` when the run completes,
collecting emitted rows in order; `none` when any row aborts the run. -/
def map_to_loci_go (file : List Nat) (n iters : Nat) :
    List (List String) → Option (List (List String))
  | [] => some []
  | row :: rest =>
    match processRow file n iters row with
    | .emitted out => (map_to_loci_go file n iters rest).map (out :: ·)
    | .skippedRow => map_to_loci_go file n iters rest
    | .fatal => none

/-- Source `map_to_loci`: read the record count from the header, then process
every input row. -/
def map_to_loci (file : List Nat) (rows : List (List String)) :
    Option (List (List String)) :=
  match read_u64_at file 0 with
  | none => none
  | some n => map_to_loci_go file n (max_iters n) rows

/-- Linear scan over the records: first record (in file order) with the
target rsid.  The reference the spec compares `Locator.lookup` against. -/
def linear_lookup (rs : List MapRecord) (t : Nat) : Option (Nat × Nat) :=
  match rs with
  | [] => none
  | r :: rest => if r.rsid = t then some (r.chrom, r.pos) else linear_lookup rest t

/-- Spec-worded identifier parse, for comparison with the source's
`rsid_to_u32` (claim C7): strip the fixed `rs` prefix from the front of
the string only, leave every other occurrence of the prefix text in
place, and parse the remainder as `u32`. -/
def rsid_strip_front (s : String) : Option Nat :=
  match s.data with
  | 'r' :: 's' :: rest => parse_nat_bounded (2 ^ 32) rest
  | cs => parse_nat_bounded (2 ^ 32) cs

/-! ## Shared helper lemmas -/

theorem be_val_u64 (n : Nat) (h : n < 2 ^ 64) : be_val (u64_to_be n) = n := by
  simp only [be_val, u64_to_be, List.foldl]
  omega

theorem be_val_u32 (n : Nat) (h : n < 2 ^ 32) : be_val (u32_to_be n) = n := by
  simp only [be_val, u32_to_be, List.foldl]
  omega

theorem length_u64_to_be (n : Nat) : (u64_to_be n).length = 8 := rfl

theorem length_write_map_record (r : MapRecord) : (write_map_record r).length = 9 := rfl

theorem length_records_flatten (rs : List MapRecord) :
    ((rs.map write_map_record).flatten).length = 9 * rs.length := by
  induction rs with
  | nil => rfl
  | cons r rest ih =>
    simp only [List.map_cons, List.flatten_cons, List.length_append, ih,
      length_write_map_record, List.length_cons]
    ring

theorem length_mapFile (rs : List MapRecord) :
    (mapFile rs).length = 8 + 9 * rs.length := by
  simp only [mapFile, List.length_append, length_u64_to_be, length_records_flatten]

/-- Auxiliary for C4: once two adjacent rows parse to strictly descending
rsids, the record-writing loop returns `none` from any reachable state. -/
theorem write_go_unsorted_none (ra rb : List String) (A B : MapRecord)
    (hA : parse_map_record ra = some A) (hB : parse_map_record rb = some B)
    (hlt : B.rsid < A.rsid) :
    ∀ (l1 l2 : List (List String)) (last cnt : Nat) (acc : List Nat),
      write_map_records_go last cnt acc (l1 ++ ra :: rb :: l2) = none := by
  intro l1
  induction l1 with
  | nil =>
    intro l2 last cnt acc
    simp only [List.nil_append, write_map_records_go, hA]
    by_cases h : last > A.rsid
    · simp [h]
    · simp only [if_neg h, write_map_records_go, hB]
      rw [if_pos hlt]
  | cons row l1' ih =>
    intro l2 last cnt acc
    simp only [List.cons_append, write_map_records_go]
    cases hp : parse_map_record row with
    | none => rfl
    | some r =>
      by_cases h : last > r.rsid
      · simp [h]
      · dsimp only
        rw [if_neg h]
        exact ih l2 r.rsid (cnt + 1) (acc ++ write_map_record r)

/-- Auxiliary for C5: a successful record-writing loop appends exactly the
encodings of a list of parsed records, and counts them. -/
theorem write_go_shape :
    ∀ (rows : List (List String)) (last cnt : Nat) (acc res : List Nat) (n : Nat),
      write_map_records_go last cnt acc rows = some (res, n) →
      ∃ rl : List MapRecord,
        res = acc ++ (rl.map write_map_record).flatten ∧ n = cnt + rl.length := by
  intro rows
  induction rows with
  | nil =>
    intro last cnt acc res n h
    simp only [write_map_records_go, Option.some.injEq, Prod.mk.injEq] at h
    exact ⟨[], by simp [← h.1, ← h.2]⟩
  | cons row rest ih =>
    intro last cnt acc res n h
    simp only [write_map_records_go] at h
    cases hp : parse_map_record row with
    | none => rw [hp] at h; simp at h
    | some r =>
      rw [hp] at h
      dsimp only at h
      by_cases hs : last > r.rsid
      · rw [if_pos hs] at h; exact absurd h (by simp)
      · rw [if_neg hs] at h
        obtain ⟨rl', hres, hn⟩ := ih r.rsid (cnt + 1) (acc ++ write_map_record r) res n h
        refine ⟨r :: rl', ?_, ?_⟩
        · simp [hres, List.append_assoc]
        · simp [hn]; omega

/-! ## Claims -/

/-- Claim C1 (code bug): the claim says every input row whose rsid is
absent from the index makes the whole run fail, whether the absence is
detected by the bounds crossing or by the iteration budget running out,
and that a row is never silently skipped.  The code disagrees on the
budget path: against the one-record index `[5]`, the budget is
`ceil(log2 1) = 0`, so for the absent rsid 3 the search loop never runs,
nothing fails, and the run completes successfully having silently dropped
the row. -/
theorem C1_absent_rsid_run_succeeds :
    map_to_loci (mapFile [⟨5, 1, 10⟩]) [["rs3", "x"]] = some [] ∧
    lookupRsid (mapFile [⟨5, 1, 10⟩]) 3 = .budgetExhausted := by decide

/-- Claim C2 (code bug): the claim says the binary search agrees with a
linear scan on every built index, and in particular that a one-record
index resolves its own identifier.  The code disagrees: the iteration
budget `ceil(log2 N)` is one probe short, so against the one-record index
`[100 -> (1, 5000)]` the lookup of the stored rsid 100 performs zero
probes and finds nothing, while the linear scan returns the record. -/
theorem C2_lookup_misses_stored_rsid :
    lookupRsid (mapFile [⟨100, 1, 5000⟩]) 100 = .budgetExhausted ∧
    linear_lookup [⟨100, 1, 5000⟩] 100 = some (1, 5000) := by decide

/-- Claim C3 (code bug): the claim says `end = middle - 1` is guarded so
that a `greater` comparison at `middle == 0` terminates the search as
not-found and no bound computation underflows.  The code disagrees: on
the two-record index `[5, 7]` with target 3, the first probe is at
`middle = 0`, compares greater, and the unchecked `u64` subtraction wraps
the `end` bound to `2^64 - 1` (a panic in a debug build); the search then
ends with its budget exhausted, not with a not-found termination. -/
theorem C3_end_bound_underflows :
    binStep (mapFile [⟨5, 1, 10⟩, ⟨7, 1, 20⟩]) 3 0 1 = .next 0 (2 ^ 64 - 1) ∧
    lookupRsid (mapFile [⟨5, 1, 10⟩, ⟨7, 1, 20⟩]) 3 = .budgetExhausted := by decide

/-- Claim C6 (code bug): the claim says the label-to-code conversion
succeeds exactly on `"1".."22"`, `"X"`, `"Y"`, `"MT"` and errors on every
other label, naming `"0"`, `"23"` and `"255"` as examples.  The code
disagrees: its fallthrough arm accepts any string that parses as `u8`, so
`"0"`, `"23"` and `"255"` all succeed - even though the code's own decoder
`u8_to_chrom` treats the resulting bytes 0 and 255 as fatally invalid. -/
theorem C6_out_of_range_labels_accepted :
    chrom_to_u8 "0" = some 0 ∧ chrom_to_u8 "23" = some 23 ∧
    chrom_to_u8 "255" = some 255 ∧
    u8_to_chrom 0 = none ∧ u8_to_chrom 255 = none ∧
    chrom_to_u8 "X" = some 23 ∧ chrom_to_u8 "Y" = some 24 ∧
    chrom_to_u8 "MT" = some 25 := by decide

/-- Claim C10: building from an empty source table succeeds with record
count 0 and produces exactly the 8-byte big-endian encoding of 0 followed
by no records. -/
theorem C10_empty_build_header_only :
    create_map [] = some (u64_to_be 0) ∧
    u64_to_be 0 = [0, 0, 0, 0, 0, 0, 0, 0] ∧
    write_map_records [] = some ([], 0) := by decide

/-- Claim C7 counterexample: the claim says only the prefix at the front
is stripped, so `"rs1rs2"` would have to parse as the non-numeric
`"1rs2"` and fail; the code's `replace` removes the inner occurrence too
and returns 12, unlike the spec-worded front-strip parse. -/
theorem C7_inner_occurrence_removed :
    rsid_to_u32 "rs1rs2" = some 12 ∧ rsid_strip_front "rs1rs2" = none := by decide

/-- Claim C8 counterexample: the claim says a duplicated identifier
resolves to the first matching record in file order.  On the three-record
index `[7 -> (1, 10), 7 -> (2, 20), 7 -> (3, 30)]` the first probe lands
on the middle record, so the lookup returns `(2, 20)`, while the first
record in file order is `(1, 10)`. -/
theorem C8_duplicate_not_first_in_file_order :
    lookupRsid (mapFile [⟨7, 1, 10⟩, ⟨7, 2, 20⟩, ⟨7, 3, 30⟩]) 7 = .found "2" 20 ∧
    linear_lookup [⟨7, 1, 10⟩, ⟨7, 2, 20⟩, ⟨7, 3, 30⟩] 7 = some (1, 10) ∧
    u8_to_chrom 1 = some "1" ∧
    LookupResult.found "2" 20 ≠ LookupResult.found "1" 10 := by decide

/-- Claim C4: a source table in which some row's parsed rsid is strictly
below the previous row's parsed rsid makes the build abort, so the
count header is never prepended and the destination never becomes a
usable index (`create_map` returns `none`). -/
theorem C4_unsorted_build_aborts (l1 l2 : List (List String)) (ra rb : List String)
    (A B : MapRecord) (hA : parse_map_record ra = some A)
    (hB : parse_map_record rb = some B) (hlt : B.rsid < A.rsid) :
    create_map (l1 ++ ra :: rb :: l2) = none := by
  simp only [create_map, write_map_records,
    write_go_unsorted_none ra rb A B hA hB hlt l1 l2 0 0 []]

/-- Witness for C4 at the spec's own example, identifiers `[5, 3]`. -/
theorem C4_unsorted_build_aborts_witness :
    parse_map_record ["rs5", "1:10"] = some ⟨5, 1, 10⟩ ∧
    parse_map_record ["rs3", "1:20"] = some ⟨3, 1, 20⟩ ∧
    create_map [["rs5", "1:10"], ["rs3", "1:20"]] = none :=
  ⟨by decide, by decide,
    C4_unsorted_build_aborts [] [] ["rs5", "1:10"] ["rs3", "1:20"]
      ⟨5, 1, 10⟩ ⟨3, 1, 20⟩ (by decide) (by decide) (by decide)⟩

/-- Claim C5: a build that succeeds with record count `n` produces the
file whose first 8 bytes decode big-endian to exactly `n`, followed by
the `n` encoded 9-byte records, with total size `8 + 9 * n`. -/
theorem C5_header_count_and_size (rows : List (List String)) (recs : List Nat) (n : Nat)
    (hb : write_map_records rows = some (recs, n)) (hn : n < 2 ^ 64) :
    create_map rows = some (u64_to_be n ++ recs) ∧
    (u64_to_be n).length = 8 ∧
    be_val ((u64_to_be n ++ recs).take 8) = n ∧
    (∃ rl : List MapRecord, recs = (rl.map write_map_record).flatten ∧ rl.length = n) ∧
    (u64_to_be n ++ recs).length = 8 + 9 * n := by
  obtain ⟨rl, hres, hcnt⟩ := write_go_shape rows 0 0 [] recs n hb
  simp only [List.nil_append] at hres
  have hlen : recs.length = 9 * n := by
    rw [hres, length_records_flatten]; omega
  refine ⟨?_, length_u64_to_be n, ?_, ⟨rl, hres, by omega⟩, ?_⟩
  · simp only [create_map, hb, prepend_file]
  · have : (u64_to_be n ++ recs).take 8 = u64_to_be n := by
      rw [List.take_append_of_le_length (by rw [length_u64_to_be])]
      simp [List.take_of_length_le, length_u64_to_be]
    rw [this, be_val_u64 n hn]
  · simp [length_u64_to_be, hlen]

/-- Witness for C5 on a one-row table. -/
theorem C5_header_count_and_size_witness :
    write_map_records [["rs100", "1:5000"]] = some ([0, 0, 0, 100, 1, 0, 0, 19, 136], 1) ∧
    create_map [["rs100", "1:5000"]] =
      some (u64_to_be 1 ++ [0, 0, 0, 100, 1, 0, 0, 19, 136]) ∧
    be_val ((u64_to_be 1 ++ [0, 0, 0, 100, 1, 0, 0, 19, 136]).take 8) = 1 ∧
    (u64_to_be 1 ++ [0, 0, 0, 100, 1, 0, 0, 19, 136]).length = 8 + 9 * 1 :=
  have h := C5_header_count_and_size [["rs100", "1:5000"]]
    [0, 0, 0, 100, 1, 0, 0, 19, 136] 1 (by decide) (by decide)
  ⟨by decide, h.1, h.2.2.1, h.2.2.2.2⟩

/-- Claim C9: for an input row whose leading rsid parses and resolves to
a record, the emitted row is the locus string `chrom:pos` followed by all
remaining input fields, unchanged and in order. -/
theorem C9_emitted_row_is_locus_then_tail (file : List Nat) (n iters : Nat)
    (f0 : String) (rest : List String) (rsid pos : Nat) (chrom : String)
    (hparse : rsid_to_u32 f0 = some rsid)
    (hfound : binSearch file rsid iters 0 ((n + (U64 - 1)) % U64) = .found chrom pos) :
    processRow file n iters (f0 :: rest) =
      .emitted ((chrom ++ ":" ++ Nat.repr pos) :: rest) := by
  simp only [processRow, hparse, hfound]

/-- Witness for C9: the spec's end-to-end shaped example, against a
two-record index where the lookup of rsid 100 succeeds. -/
theorem C9_emitted_row_is_locus_then_tail_witness :
    rsid_to_u32 "rs100" = some 100 ∧
    binSearch (mapFile [⟨100, 1, 5000⟩, ⟨200, 2, 6000⟩]) 100 1 0 ((2 + (U64 - 1)) % U64) =
      .found "1" 5000 ∧
    processRow (mapFile [⟨100, 1, 5000⟩, ⟨200, 2, 6000⟩]) 2 1
      ["rs100", "sampleA", "genotypeAA"] =
      .emitted ["1:5000", "sampleA", "genotypeAA"] :=
  ⟨by decide, by decide,
    C9_emitted_row_is_locus_then_tail (mapFile [⟨100, 1, 5000⟩, ⟨200, 2, 6000⟩]) 2 1
      "rs100" ["sampleA", "genotypeAA"] 100 5000 "1" (by decide) (by decide)⟩

/-- Auxiliary for C7: a digit string contains no `rs` occurrence, so the
replace is the identity on it. -/
theorem removeRS_of_digits :
    ∀ ds : List Char, (∀ c ∈ ds, c.isDigit = true) → removeRS ds = ds
  | [], _ => rfl
  | [_], _ => rfl
  | c1 :: c2 :: rest, h => by
    have hc1 : c1.isDigit = true := h c1 (by simp)
    have hne : ¬(c1 = 'r' ∧ c2 = 's') := by
      rintro ⟨rfl, -⟩
      simp [Char.isDigit] at hc1
    simp only [removeRS, if_neg hne, List.cons.injEq, true_and]
    exact removeRS_of_digits (c2 :: rest) fun c hc => h c (List.mem_cons_of_mem _ hc)

/-- Auxiliary for C7: Rust `parse` on a nonempty all-digit string within
the carrier bound yields the digits' value. -/
theorem parse_nat_bounded_digits (bound : Nat) :
    ∀ ds : List Char, ds ≠ [] → (∀ c ∈ ds, c.isDigit = true) →
      digitsVal ds < bound → parse_nat_bounded bound ds = some (digitsVal ds)
  | [], h1, _, _ => absurd rfl h1
  | c :: rest, _, h2, h3 => by
    have hc : c.isDigit = true := h2 c (by simp)
    have hcp : c ≠ '+' := by
      rintro rfl
      simp [Char.isDigit] at hc
    have hall : (c :: rest).all Char.isDigit = true := by
      rw [List.all_eq_true]
      exact h2
    simp only [parse_nat_bounded, if_neg hcp, if_neg (List.cons_ne_nil c rest), hall,
      if_true, if_pos h3]

/-- Claim C7 (amended): the parse removes every occurrence of the prefix
text `rs` anywhere in the string (not only at the front) and parses what
remains as `u32`; in particular a string of the form prefix-then-digits
still parses to the digits' value. -/
theorem C7_prefix_then_digits_parse (ds : List Char) (h1 : ds ≠ [])
    (h2 : ∀ c ∈ ds, c.isDigit = true) (h3 : digitsVal ds < 2 ^ 32) :
    rsid_to_u32 (String.mk ('r' :: 's' :: ds)) = some (digitsVal ds) := by
  have hrs : removeRS ('r' :: 's' :: ds) = removeRS ds := by
    cases ds with
    | nil => rfl
    | cons c rest => simp [removeRS]
  simp only [rsid_to_u32]
  rw [hrs, removeRS_of_digits ds h2]
  exact parse_nat_bounded_digits (2 ^ 32) ds h1 h2 h3

/-- Witness for the amended C7 at `"rs100"`. -/
theorem C7_prefix_then_digits_parse_witness :
    digitsVal ['1', '0', '0'] = 100 ∧
    rsid_to_u32 (String.mk ['r', 's', '1', '0', '0']) = some (digitsVal ['1', '0', '0']) :=
  ⟨by decide, C7_prefix_then_digits_parse ['1', '0', '0'] (by decide) (by decide) (by decide)⟩

/-- Auxiliary: a 4-byte big-endian read placed right after a known prefix
decodes the encoded value. -/
theorem read_u32_at_append (pre : List Nat) (v : Nat) (hv : v < 2 ^ 32) (tail : List Nat) :
    read_u32_at (pre ++ (u32_to_be v ++ tail)) pre.length = some v := by
  have hcond : pre.length + 4 ≤ (pre ++ (u32_to_be v ++ tail)).length := by
    simp [u32_to_be]
  simp only [read_u32_at, read_bytes_at, if_pos hcond, Option.map]
  rw [List.drop_left, List.take_left' (show (u32_to_be v).length = 4 from rfl),
    be_val_u32 v hv]

/-- Auxiliary: a 1-byte read placed right after a known prefix returns
the byte. -/
theorem read_u8_at_append (pre : List Nat) (v : Nat) (tail : List Nat) :
    read_u8_at (pre ++ ([v] ++ tail)) pre.length = some v := by
  have hcond : pre.length + 1 ≤ (pre ++ ([v] ++ tail)).length := by simp
  simp only [read_u8_at, read_bytes_at, if_pos hcond, Option.map]
  rw [List.drop_left, List.take_left' (show ([v] : List Nat).length = 1 from rfl)]
  simp [be_val]

/-- Auxiliary for C8: the three positioned reads of record `i` hit
exactly its three encoded fields. -/
theorem read_record_fields (rs : List MapRecord) (i : Nat) (hi : i < rs.length)
    (hrs : (rs.get ⟨i, hi⟩).rsid < 2 ^ 32) (hch : (rs.get ⟨i, hi⟩).chrom < 2 ^ 8)
    (hpos : (rs.get ⟨i, hi⟩).pos < 2 ^ 32) :
    read_u32_at (mapFile rs) (8 + 9 * i) = some (rs.get ⟨i, hi⟩).rsid ∧
    read_u8_at (mapFile rs) (8 + 9 * i + 4) = some (rs.get ⟨i, hi⟩).chrom ∧
    read_u32_at (mapFile rs) (8 + 9 * i + 4 + 1) = some (rs.get ⟨i, hi⟩).pos := by
  have h1 : rs = rs.take i ++ rs.get ⟨i, hi⟩ :: rs.drop (i + 1) := by
    conv_lhs => rw [← List.take_append_drop i rs, List.drop_eq_getElem_cons hi]
    simp
  have h2 : (rs.map write_map_record).flatten =
      ((rs.take i).map write_map_record).flatten ++
        (write_map_record (rs.get ⟨i, hi⟩) ++
          ((rs.drop (i + 1)).map write_map_record).flatten) := by
    conv_lhs => rw [h1]
    simp only [List.map_append, List.map_cons, List.flatten_append, List.flatten_cons,
      List.append_assoc]
  have hsplit : mapFile rs =
      (u64_to_be rs.length ++ ((rs.take i).map write_map_record).flatten) ++
        (write_map_record (rs.get ⟨i, hi⟩) ++
          ((rs.drop (i + 1)).map write_map_record).flatten) := by
    rw [mapFile, h2, List.append_assoc]
  have hplen : (u64_to_be rs.length ++ ((rs.take i).map write_map_record).flatten).length
      = 8 + 9 * i := by
    simp only [List.length_append, length_u64_to_be, length_records_flatten,
      List.length_take]
    omega
  set pre := u64_to_be rs.length ++ ((rs.take i).map write_map_record).flatten with hpre
  set r := rs.get ⟨i, hi⟩ with hr
  set B := ((rs.drop (i + 1)).map write_map_record).flatten with hB
  refine ⟨?_, ?_, ?_⟩
  · have e1 : mapFile rs = pre ++ (u32_to_be r.rsid ++ (([r.chrom % 256] ++ u32_to_be r.pos) ++ B)) := by
      rw [hsplit, write_map_record]
      simp [List.append_assoc]
    rw [e1, ← hplen]
    exact read_u32_at_append pre r.rsid hrs _
  · have hch256 : r.chrom < 256 := by omega
    have e2 : mapFile rs = (pre ++ u32_to_be r.rsid) ++ ([r.chrom] ++ (u32_to_be r.pos ++ B)) := by
      rw [hsplit, write_map_record, Nat.mod_eq_of_lt hch256]
      simp [List.append_assoc]
    have hplen2 : (pre ++ u32_to_be r.rsid).length = 8 + 9 * i + 4 := by
      simp only [List.length_append, hplen, u32_to_be, List.length_cons, List.length_nil]
    have := read_u8_at_append (pre ++ u32_to_be r.rsid) r.chrom (u32_to_be r.pos ++ B)
    rw [hplen2] at this
    rw [e2]
    exact this
  · have hch256 : r.chrom < 256 := by omega
    have e3 : mapFile rs = ((pre ++ u32_to_be r.rsid) ++ [r.chrom]) ++ (u32_to_be r.pos ++ B) := by
      rw [hsplit, write_map_record, Nat.mod_eq_of_lt hch256]
      simp [List.append_assoc]
    have hplen3 : ((pre ++ u32_to_be r.rsid) ++ [r.chrom]).length = 8 + 9 * i + 4 + 1 := by
      simp only [List.length_append, hplen, u32_to_be, List.length_cons, List.length_nil]
    have := read_u32_at_append ((pre ++ u32_to_be r.rsid) ++ [r.chrom]) r.pos hpos B
    rw [hplen3] at this
    rw [e3]
    exact this

/-- Auxiliary for C8, by induction on the remaining iteration budget: from
any reachable bound state (either `endv` inside the record range, or the
wrapped state `start = 0, endv = 2^64 - 1` produced by the underflowing
`end = middle - 1` step), a `found` outcome of the search loop carries the
rsid, decoded chromosome and position of some stored record. -/
theorem binSearch_found_mem (rs : List MapRecord) (t : Nat)
    (hwf : ∀ r ∈ rs, r.rsid < 2 ^ 32 ∧ r.chrom < 2 ^ 8 ∧ r.pos < 2 ^ 32)
    (hlen : 8 + 9 * rs.length < 2 ^ 63) :
    ∀ (fuel start endv : Nat), start ≤ 2 ^ 63 →
      (endv < rs.length ∨ (start = 0 ∧ endv = U64 - 1)) →
      ∀ (c : String) (p : Nat),
        binSearch (mapFile rs) t fuel start endv = .found c p →
        ∃ r ∈ rs, r.rsid = t ∧ u8_to_chrom r.chrom = some c ∧ r.pos = p := by
  intro fuel
  induction fuel with
  | zero =>
    intro start endv _ _ c p h
    simp [binSearch] at h
  | succ fuel ih =>
    intro start endv hstart hinv c p h
    simp only [binSearch] at h
    by_cases hlt : endv < start
    · rw [show binStep (mapFile rs) t start endv = .done (.notFound t) from by
        simp [binStep, hlt]] at h
      simp at h
    · rcases hinv with hN | ⟨h0, hU⟩
      · -- bounds still inside the record range
        have hNb : rs.length < 2 ^ 60 := by omega
        have hse : start ≤ endv := Nat.le_of_not_lt hlt
        have hsum : endv + start < U64 := by simp only [U64]; omega
        have hmID : (endv + start) % U64 = endv + start := Nat.mod_eq_of_lt hsum
        have hmle : (endv + start) % U64 / 2 ≤ endv := by rw [hmID]; omega
        set m := (endv + start) % U64 / 2 with hm
        have hsm : start ≤ m := by rw [hm, hmID]; omega
        have hmN : m < rs.length := lt_of_le_of_lt hmle hN
        have hmsk : get_map_seek_index m = 8 + 9 * m := by
          rw [get_map_seek_index,
            Nat.mod_eq_of_lt (by simp only [RECORD_COUNTER_SIZE, RECORD_SIZE, U64]; omega)]
          simp only [RECORD_COUNTER_SIZE, RECORD_SIZE]
          ring
        obtain ⟨hwf1, hwf2, hwf3⟩ := hwf (rs.get ⟨m, hmN⟩) (List.get_mem rs m hmN)
        obtain ⟨hr1, hr2, hr3⟩ := read_record_fields rs m hmN hwf1 hwf2 hwf3
        rcases Nat.lt_trichotomy (rs.get ⟨m, hmN⟩).rsid t with hcmp | hcmp | hcmp
        · -- stored rsid below target: start = middle + 1
          rw [show binStep (mapFile rs) t start endv = .next ((m + 1) % U64) endv from by
            simp only [binStep, if_neg hlt, ← hm, hmsk, hr1]
            rw [if_pos hcmp]] at h
          rw [show (m + 1) % U64 = m + 1 from
            Nat.mod_eq_of_lt (by simp only [U64]; omega)] at h
          exact ih (m + 1) endv (by omega) (Or.inl hN) c p h
        · -- exact match: the found data is record m's data
          have hmod4 : (8 + 9 * m + 4) % U64 = 8 + 9 * m + 4 :=
            Nat.mod_eq_of_lt (by simp only [U64]; omega)
          have hmod5 : (8 + 9 * m + 4 + 1) % U64 = 8 + 9 * m + 4 + 1 :=
            Nat.mod_eq_of_lt (by simp only [U64]; omega)
          have hnlt1 : ¬((rs.get ⟨m, hmN⟩).rsid < t) := by omega
          have hnlt2 : ¬(t < (rs.get ⟨m, hmN⟩).rsid) := by omega
          cases huc : u8_to_chrom (rs.get ⟨m, hmN⟩).chrom with
          | none =>
            rw [show binStep (mapFile rs) t start endv = .done .invalidChrom from by
              simp only [binStep, if_neg hlt, ← hm, hmsk, hr1, hmod4, hmod5, hr2, huc]
              rw [if_neg hnlt1, if_neg hnlt2]] at h
            simp at h
          | some cl =>
            rw [show binStep (mapFile rs) t start endv =
                .done (.found cl (rs.get ⟨m, hmN⟩).pos) from by
              simp only [binStep, if_neg hlt, ← hm, hmsk, hr1, hmod4, hmod5, hr2, hr3, huc]
              rw [if_neg hnlt1, if_neg hnlt2]] at h
            simp only [LookupResult.found.injEq] at h
            exact ⟨rs.get ⟨m, hmN⟩, List.get_mem rs m hmN, hcmp, h.1 ▸ huc, h.2⟩
        · -- stored rsid above target: end = middle - 1 (wrapping at middle = 0)
          have hnlt : ¬((rs.get ⟨m, hmN⟩).rsid < t) := Nat.lt_asymm hcmp
          rw [show binStep (mapFile rs) t start endv =
              .next start ((m + (U64 - 1)) % U64) from by
            simp only [binStep, if_neg hlt, ← hm, hmsk, hr1]
            rw [if_neg hnlt, if_pos hcmp]] at h
          by_cases hm0 : m = 0
          · have hs0 : start = 0 := by omega
            rw [show (m + (U64 - 1)) % U64 = U64 - 1 from by
              rw [hm0]; simp only [U64]; omega] at h
            exact ih start (U64 - 1) hstart (Or.inr ⟨hs0, rfl⟩) c p h
          · rw [show (m + (U64 - 1)) % U64 = m - 1 from by
              simp only [U64] at *; omega] at h
            exact ih start (m - 1) hstart (Or.inl (by omega)) c p h
      · -- wrapped state: the probe offset is astronomically past the file
        subst h0 hU
        have hmid : (U64 - 1 + 0) % U64 / 2 = 2 ^ 63 - 1 := by
          simp only [U64]
          omega
        have hseek : get_map_seek_index (2 ^ 63 - 1) = 2 ^ 63 - 1 := by
          simp only [get_map_seek_index, RECORD_COUNTER_SIZE, RECORD_SIZE, U64]
          omega
        have hread : read_u32_at (mapFile rs) (2 ^ 63 - 1) = none := by
          simp only [read_u32_at, read_bytes_at]
          rw [if_neg (by rw [length_mapFile]; omega)]
          rfl
        rw [show binStep (mapFile rs) t 0 (U64 - 1) = .done .ioError from by
          simp only [binStep, hmid, hseek, hread]
          simp [U64]] at h
        simp at h

/-- Claim C8 (amended): with duplicate identifiers the lookup returns the
chromosome and position of the first equal record the binary-search probe
sequence encounters, which is some stored record with the target
identifier but not necessarily the first such record in file order. -/
theorem C8_lookup_found_is_stored (rs : List MapRecord) (t : Nat) (c : String) (p : Nat)
    (hwf : ∀ r ∈ rs, r.rsid < 2 ^ 32 ∧ r.chrom < 2 ^ 8 ∧ r.pos < 2 ^ 32)
    (hlen : 8 + 9 * rs.length < 2 ^ 63)
    (hfound : lookupRsid (mapFile rs) t = .found c p) :
    ∃ r ∈ rs, r.rsid = t ∧ u8_to_chrom r.chrom = some c ∧ r.pos = p := by
  have hhdr : read_u64_at (mapFile rs) 0 = some rs.length := by
    simp only [read_u64_at, read_bytes_at, mapFile]
    rw [if_pos (by simp only [List.length_append, length_u64_to_be]; omega)]
    rw [List.drop_zero, List.take_left' (length_u64_to_be _), Option.map,
      be_val_u64 _ (by omega)]
  rw [lookupRsid, hhdr] at hfound
  unfold lookupGo at hfound
  refine binSearch_found_mem rs t hwf hlen (max_iters rs.length) 0
    ((rs.length + (U64 - 1)) % U64) (by omega) ?_ c p hfound
  rcases Nat.eq_zero_or_pos rs.length with hz | hpos
  · exact Or.inr ⟨rfl, by rw [hz]; simp only [U64]; omega⟩
  · exact Or.inl (by simp only [U64] at *; omega)

/-- Witness for the amended C8 on the duplicate-identifier index. -/
theorem C8_lookup_found_is_stored_witness :
    lookupRsid (mapFile [⟨7, 1, 10⟩, ⟨7, 2, 20⟩, ⟨7, 3, 30⟩]) 7 = .found "2" 20 ∧
    ∃ r ∈ [(⟨7, 1, 10⟩ : MapRecord), ⟨7, 2, 20⟩, ⟨7, 3, 30⟩],
      r.rsid = 7 ∧ u8_to_chrom r.chrom = some "2" ∧ r.pos = 20 :=
  ⟨by decide,
    C8_lookup_found_is_stored [⟨7, 1, 10⟩, ⟨7, 2, 20⟩, ⟨7, 3, 30⟩] 7 "2" 20
      (by decide) (by decide) (by decide)⟩

end Mapdbsnp
